import Mathlib

/-!
Verification of the datahub-file-service (DHFS) interrogation pipeline.

The definitions below are a shallow embedding of the Python sources:
  * `src/dhfs/constants.py`        — crypt4gh constants,
  * `src/dhfs/models.py`           — `FileUpload.offset` and
    `FileUpload.calc_encrypted_part_ranges`,
  * `src/dhfs/core/interrogator.py`— the per-file state machine and the
    batch driver `interrogate_new_files`, modelled as a trace semantics
    over oracle outcomes of the external crypto/storage calls,
  * `src/dhfs/adapters/outbound/s3.py` — the Range-header construction of
    `fetch_file_content_range`, the error handling of `remove_file`,
  * `src/dhfs/core/cleaner.py`     — the per-object deletion loop of
    `S3Cleaner.scan_and_clean`,
  * `src/dhfs/ports/outbound/s3.py`— the abstract client contract
    (method names and required keyword parameters).
-/

/-! ## Constants (`src/dhfs/constants.py`, `crypt4gh.lib.SEGMENT_SIZE`) -/

def NONCE_LENGTH : Nat := 12

def AUTH_TAG_LENGTH : Nat := 16

def ENCRYPTION_SECRET_LENGTH : Nat := 32

/-- `crypt4gh.lib.SEGMENT_SIZE`: plaintext bytes per Crypt4GH segment. -/
def SEGMENT_SIZE : Nat := 65536

/-! ## Data model (`src/dhfs/models.py`) -/

/-- Container for inclusive download ranges (`PartRange` dataclass). -/
structure PartRange where
  start : Nat
  stop : Nat
deriving DecidableEq, Repr

/-- The fields of `FileUpload` that the derived values `offset` and
`calc_encrypted_part_ranges` consume.  The remaining fields (`id`,
`storage_alias`, `decrypted_sha256`) are opaque identifiers/digests that
play no role in the size arithmetic and are abstracted in the trace
semantics further below. -/
structure FileUpload where
  decrypted_size : Nat
  encrypted_size : Nat
  part_size : Nat
deriving DecidableEq, Repr

/-- `FileUpload.offset`, translated line by line: Python
`size_sans_envelope` is `chunk_size * chunks + (unencrypted_remainder +
NONCE_LENGTH + AUTH_TAG_LENGTH)`; note the remainder term is added
unconditionally. -/
def size_sans_envelope (decrypted_size : Nat) : Nat :=
  let chunk_size := NONCE_LENGTH + SEGMENT_SIZE + AUTH_TAG_LENGTH
  let chunks := decrypted_size / SEGMENT_SIZE
  let unencrypted_remainder := decrypted_size - SEGMENT_SIZE * chunks
  chunk_size * chunks + (unencrypted_remainder + NONCE_LENGTH + AUTH_TAG_LENGTH)

/-- `FileUpload.offset = encrypted_size - size_sans_envelope`.  Python
integers may go negative here, hence `Int`. -/
def FileUpload.offset (u : FileUpload) : Int :=
  (u.encrypted_size : Int) - (size_sans_envelope u.decrypted_size : Int)

/-- The ciphertext size as §4.3 of the specification states it: the
partial-segment term `plaintext_remainder + N + T` is added only when
`plaintext_remainder > 0`.  This is the spec-side formula, kept distinct
from `size_sans_envelope` (the code-side formula) so the two can be
compared. -/
def ciphertext_size_spec (decrypted_size : Nat) : Nat :=
  let full_segments := decrypted_size / SEGMENT_SIZE
  let plaintext_remainder := decrypted_size - full_segments * SEGMENT_SIZE
  full_segments * (NONCE_LENGTH + SEGMENT_SIZE + AUTH_TAG_LENGTH) +
    (if plaintext_remainder > 0 then
      plaintext_remainder + NONCE_LENGTH + AUTH_TAG_LENGTH
    else 0)

/-- The body of the `while processed < file_size` loop of
`FileUpload.calc_encrypted_part_ranges`.  One fuel unit is spent per
iteration; every iteration advances `processed` by at least one byte, so
`file_size` units of fuel always suffice (the top-level wrapper passes
exactly that). -/
def partRangesLoop : Nat → Nat → Nat → List PartRange
  | 0, _, _ => []
  | fuel + 1, file_size, processed =>
    if processed < file_size then
      let next := processed + NONCE_LENGTH + SEGMENT_SIZE + AUTH_TAG_LENGTH
      ⟨processed, min next file_size⟩ :: partRangesLoop fuel file_size next
    else []

/-- `FileUpload.calc_encrypted_part_ranges`: `file_size = encrypted_size -
offset` (an `Int` in Python; the loop runs only over its non-negative
part, which `Int.toNat` captures). -/
def FileUpload.calc_encrypted_part_ranges (u : FileUpload) : List PartRange :=
  let file_size := ((u.encrypted_size : Int) - u.offset).toNat
  partRangesLoop file_size file_size 0

/-! ## Trace semantics of `Interrogator` (`src/dhfs/core/interrogator.py`)

The per-file state machine is embedded as a function from oracle
outcomes of the external calls (crypto success/failure per part, checksum
comparisons, store operations) to the list of performed effects and the
exception, if any, that escapes `interrogate_file`.  The oracle knobs
cover exactly the failure points of the Python code; `abort_upload` is
modelled as succeeding (its own failure modes are orthogonal to every
claim below).  A failure report carries `passed=false` and the reported
`reason`; a success report carries `passed=true` together with the new
secret and the per-part digest lists, which the claims below do not
inspect. -/

/-- Exception classes, mirroring the hierarchies of
`src/dhfs/ports/outbound/interrogator.py` and
`src/dhfs/ports/outbound/s3.py`, plus the two non-DHFS exceptions the
core can let escape: the raw `crypt4gh.header.deconstruct` error (a
`ValueError`; `_extract_secret` wraps nothing) and Python's
`UnboundLocalError` (reachable because the `except ReencryptionError`
block in `_process_file_parts` does not re-raise). -/
inductive Err
  | fileNotFound
  | reencryptionError
  | envelopeDecryptionError
  | decryptionError
  | checksumMismatch (msg : String)
  | rawHeaderError
  | unboundLocal
  | uploadInitError
  | uploadError
  | uploadCompletionError
deriving DecidableEq, Repr

/-- Which classes derive from `InterrogatorPort.InterrogationError`
(`FileEnvelopeDecryptionError`, `DecryptionError`,
`ChecksumMismatchError`); only these are caught by the
`except self.InterrogationError` clause of `interrogate_new_files`. -/
def Err.isInterrogationError : Err → Bool
  | .envelopeDecryptionError => true
  | .decryptionError => true
  | .checksumMismatch _ => true
  | _ => false

/-- `str(err)` of a raised instance: `DecryptionError()` is raised with
no arguments (empty message); `ChecksumMismatchError` carries the message
it was constructed with. -/
def Err.message : Err → String
  | .checksumMismatch msg => msg
  | _ => ""

/-- Message of the `ChecksumMismatchError` raised by
`_compare_unencrypted_checksums`. -/
def shaMismatchMsg : String :=
  "SHA-256 checksum over unencrypted content does not match the" ++
    " value submitted with the file"

/-- Message of the `ChecksumMismatchError` raised after comparing the
server ETag in `interrogate_file`. -/
def etagMismatchMsg : String := "S3 ETag didn't match the expected MD5 checksum"

/-- Observable effects of one interrogation, in program order. -/
inductive Event
  | fetchEnvelope
  | initUpload
  | fetchPart (n : Nat)
  | uploadPart (n : Nat)
  | abortUpload
  | completeUpload
  | reportSuccess (fileId : Nat)
  | reportFailure (fileId : Nat) (reason : String)
deriving DecidableEq, Repr

/-- Recognizes `reportFailure` events (a report with `passed=false`). -/
def Event.isFailureReport : Event → Bool
  | .reportFailure _ _ => true
  | _ => false

/-- Oracle outcomes of the external calls for one file. -/
structure Env where
  envelopeParses : Bool
  initUploadFails : Bool
  numParts : Nat
  decryptOldFails : Nat → Bool
  reencryptFails : Nat → Bool
  confirmFails : Nat → Bool
  uploadPartFails : Nat → Bool
  shaMatches : Bool
  completeFails : Bool
  etagMatches : Bool

/-- No external call fails while handling part `n`. -/
abbrev cleanAt (env : Env) (n : Nat) : Prop :=
  env.decryptOldFails n = false ∧ env.reencryptFails n = false ∧
    env.confirmFails n = false ∧ env.uploadPartFails n = false

/-- The part loop of `_process_file_parts`.  `reenc` models the Python
local variable `reencrypted_part`: `none` before the first successful
assignment, `some j` when it holds the re-encryption of part `j`.  On a
`ReencryptionError` the `except` block only logs (no `raise`), so the
variable keeps its previous value; the confirmatory decrypt then either
touches an unbound local (part 0) or re-processes the stale previous
part's bytes. -/
def processLoop (env : Env) : List Nat → Option Nat → List Event × Option Err
  | [], _ => ([], none)
  | n :: rest, reenc =>
    if env.decryptOldFails n then
      ([Event.fetchPart n], some .decryptionError)
    else
      let reenc' := if env.reencryptFails n then reenc else some n
      match reenc' with
      | none => ([Event.fetchPart n], some .unboundLocal)
      | some j =>
        if env.confirmFails j then
          ([Event.fetchPart n], some .decryptionError)
        else if env.uploadPartFails n then
          ([Event.fetchPart n, Event.uploadPart n], some .uploadError)
        else
          let res := processLoop env rest reenc'
          (Event.fetchPart n :: Event.uploadPart n :: res.1, res.2)

/-- `Interrogator.interrogate_file`, in program order: fetch and decode
the envelope, init the multipart upload, run the part loop, compare the
plaintext SHA-256 (aborting the upload on mismatch), complete the upload,
compare the ETag, and report success.  No other path calls
`abort_upload`. -/
def interrogateFile (env : Env) (fileId : Nat) : List Event × Option Err :=
  if ¬ env.envelopeParses then
    ([Event.fetchEnvelope], some .rawHeaderError)
  else if env.initUploadFails then
    ([Event.fetchEnvelope, Event.initUpload], some .uploadInitError)
  else
    let res := processLoop env (List.range env.numParts) none
    let evs := Event.fetchEnvelope :: Event.initUpload :: res.1
    match res.2 with
    | some e => (evs, some e)
    | none =>
      if ¬ env.shaMatches then
        (evs ++ [Event.abortUpload], some (.checksumMismatch shaMismatchMsg))
      else if env.completeFails then
        (evs ++ [Event.completeUpload], some .uploadCompletionError)
      else if ¬ env.etagMatches then
        (evs ++ [Event.completeUpload], some (.checksumMismatch etagMismatchMsg))
      else
        (evs ++ [Event.completeUpload, Event.reportSuccess fileId], none)

/-- One file of a batch: its id, whether the inbox existence check
succeeds, and the oracle for its interrogation. -/
structure FileTask where
  fileId : Nat
  inInbox : Bool
  env : Env

/-- `Interrogator.interrogate_new_files`: sequential processing; only
`InterrogationError` subclasses are caught and turned into exactly one
failure report before the next file; everything else propagates and stops
the batch (`FileNotFoundError` is a `CantCompleteError`, so a missing
file also stops the batch). -/
def runBatch : List FileTask → List Event × Option Err
  | [] => ([], none)
  | t :: rest =>
    if ¬ t.inInbox then
      ([], some .fileNotFound)
    else
      let res := interrogateFile t.env t.fileId
      match res.2 with
      | none =>
        let res' := runBatch rest
        (res.1 ++ res'.1, res'.2)
      | some e =>
        if e.isInterrogationError then
          let res' := runBatch rest
          (res.1 ++ Event.reportFailure t.fileId e.message :: res'.1, res'.2)
        else (res.1, some e)

/-! ## Range header of `S3Client.fetch_file_content_range`
(`src/dhfs/adapters/outbound/s3.py`) -/

/-- The header value built by the adapter: `f"bytes={start}-{stop}"` —
`start` and `stop` are forwarded unchanged. -/
def rangeHeaderValue (start stop : Nat) : String :=
  "bytes=" ++ toString start ++ "-" ++ toString stop

/-- The byte offsets an inclusive-inclusive HTTP `Range: bytes=a-b`
header denotes: `a, a+1, …, b` (for `a ≤ b`). -/
def wireBytesRequested (a b : Nat) : List Nat := List.range' a (b - a + 1)

/-- The byte offsets of a planner range, half-open `[start, stop)`. -/
def plannerBytes (r : PartRange) : List Nat := List.range' r.start (r.stop - r.start)

/-! ## Deletion (`S3Client.remove_file`, `S3Cleaner.scan_and_clean`) -/

/-- Outcomes of the underlying `object_storage.delete_object` call. -/
inductive DeleteOutcome
  | deleted
  | objectNotFound
  | bucketNotFound
  | otherError
deriving DecidableEq, Repr

/-- Result of a delete wrapper: normal return (with or without a logged
warning) or a raised error. -/
inductive S3CallResult
  | ok (warned : Bool)
  | raisedBucketNotFound
  | raisedCleanupError
deriving DecidableEq, Repr

/-- Outcome of a `scan_and_clean` run. -/
inductive CleanOutcome
  | completed
  | raisedCleanupError (object_id : String)
deriving DecidableEq, Repr

/-- The bucket is a list of object ids; `delete_object` succeeds exactly
when the object is present, otherwise it raises `ObjectNotFoundError`
(bucket existence is not at issue in these claims). -/
def storeDelete (store : List String) (object_id : String) :
    DeleteOutcome × List String :=
  if object_id ∈ store then (.deleted, store.erase object_id)
  else (.objectNotFound, store)

/-- The `try/except` of `S3Client.remove_file`: `ObjectNotFoundError` is
logged as a warning and swallowed; `BucketNotFoundError` re-raised;
anything else wrapped into `S3CleanupError` and raised. -/
def removeFileHandler : DeleteOutcome → S3CallResult
  | .deleted => .ok false
  | .objectNotFound => .ok true
  | .bucketNotFound => .raisedBucketNotFound
  | .otherError => .raisedCleanupError

/-- `S3Client.remove_file` against the store model. -/
def remove_file (store : List String) (object_id : String) :
    S3CallResult × List String :=
  let res := storeDelete store object_id
  (removeFileHandler res.1, res.2)

/-- The per-object deletion loop of `S3Cleaner.scan_and_clean`: each
delete is wrapped in `try/except Exception → raise S3CleanupError`, so
any failure — object-not-found included — raises and stops the run. -/
def scanAndCleanLoop (store : List String) : List String → List String × CleanOutcome
  | [] => (store, .completed)
  | object_id :: rest =>
    match storeDelete store object_id with
    | (.deleted, s) => scanAndCleanLoop s rest
    | (_, s) => (s, .raisedCleanupError object_id)

/-- `S3Cleaner.scan_and_clean`: the central API's reply `removable` is an
oracle input; each listed object is deleted in order. -/
def scan_and_clean (store removable : List String) : List String × CleanOutcome :=
  scanAndCleanLoop store removable

/-! ## The S3 client contract vs the core's invocations
(`src/dhfs/ports/outbound/s3.py` vs `src/dhfs/core/interrogator.py`) -/

/-- The abstract methods of `S3ClientPort` with their (keyword-only)
parameter names; every parameter is required. -/
def s3PortMethodKwargs : List (String × List String) :=
  [("get_is_file_in_inbox", ["file_id"]),
   ("list_files_in_interrogation_bucket", []),
   ("fetch_file_content_range", ["object_id", "start", "stop"]),
   ("init_interrogation_bucket_upload", ["object_id"]),
   ("upload_file_part", ["upload_id", "object_id", "part_no", "part_md5", "part"]),
   ("complete_upload", ["upload_id", "object_id", "part_count"]),
   ("abort_upload", ["upload_id", "object_id"]),
   ("remove_file", ["object_id"])]

/-- A method invocation on the injected S3 client: attribute name plus
keyword-argument names. -/
structure S3Call where
  method : String
  kwargs : List String
deriving DecidableEq, Repr

/-- How Python fails an invocation against an object that implements
exactly the `S3ClientPort` contract: a missing attribute raises
`AttributeError`; a present method called with a keyword-argument set
different from its parameter list raises `TypeError`. -/
inductive CallFault
  | missingMethod
  | badArguments
deriving DecidableEq, Repr

/-- Resolve one invocation against the port contract. -/
def resolveCall (c : S3Call) : Option CallFault :=
  match s3PortMethodKwargs.find? (fun p => p.1 == c.method) with
  | none => some .missingMethod
  | some p =>
    if p.2.all (fun k => c.kwargs.contains k) ∧ c.kwargs.all (fun k => p.2.contains k)
    then none
    else some .badArguments

/-- The S3-client invocations `Interrogator.interrogate_file` issues, in
program order (from `src/dhfs/core/interrogator.py`): the envelope fetch
via `fetch_file_part`, the upload init, per part a `fetch_file_part` and
an `upload_file_part`, and finally `complete_upload` without
`part_count`. -/
def interrogateFileS3Calls (numParts : Nat) : List S3Call :=
  [⟨"fetch_file_part", ["object_id", "start", "stop"]⟩,
   ⟨"init_interrogation_bucket_upload", ["object_id"]⟩] ++
  (List.range numParts).flatMap (fun _ =>
    [⟨"fetch_file_part", ["object_id", "start", "stop"]⟩,
     ⟨"upload_file_part", ["upload_id", "object_id", "part_no", "part_md5", "part"]⟩]) ++
  [⟨"complete_upload", ["upload_id", "object_id"]⟩]

/-- Index of the first invocation that fails to resolve. -/
def firstFaultIdx (calls : List S3Call) : Option Nat :=
  calls.findIdx? (fun c => (resolveCall c).isSome)

/-! ## Basic facts about the size arithmetic -/

theorem size_sans_envelope_eq (d : Nat) :
    size_sans_envelope d =
      (NONCE_LENGTH + SEGMENT_SIZE + AUTH_TAG_LENGTH) * (d / SEGMENT_SIZE) +
        (d % SEGMENT_SIZE + NONCE_LENGTH + AUTH_TAG_LENGTH) := by
  simp only [size_sans_envelope]
  congr 1
  have := Nat.div_add_mod d SEGMENT_SIZE
  omega

/-- `encrypted_size - offset` always evaluates back to
`size_sans_envelope decrypted_size`, whatever the declared sizes are. -/
theorem file_size_eq (u : FileUpload) :
    ((u.encrypted_size : Int) - u.offset).toNat = size_sans_envelope u.decrypted_size := by
  simp [FileUpload.offset]

theorem partRangesLoop_sum (fuel : Nat) :
    ∀ p fs, fs - p ≤ fuel →
      ((partRangesLoop fuel fs p).map (fun r => r.stop - r.start)).sum = fs - p := by
  induction fuel with
  | zero =>
    intro p fs h
    simp only [partRangesLoop, List.map_nil, List.sum_nil]
    omega
  | succ n ih =>
    intro p fs h
    simp only [partRangesLoop]
    split
    · rename_i hlt
      simp only [List.map_cons, List.sum_cons]
      rw [ih]
      · simp only [NONCE_LENGTH, SEGMENT_SIZE, AUTH_TAG_LENGTH]
        omega
      · simp only [NONCE_LENGTH, SEGMENT_SIZE, AUTH_TAG_LENGTH]
        omega
    · rename_i hge
      simp only [List.map_nil, List.sum_nil]
      omega

theorem partRangesLoop_mem (fuel : Nat) :
    ∀ p fs, ∀ r ∈ partRangesLoop fuel fs p,
      p ≤ r.start ∧ r.start < r.stop ∧ r.stop ≤ fs := by
  induction fuel with
  | zero =>
    intro p fs r hr
    simp [partRangesLoop] at hr
  | succ n ih =>
    intro p fs r hr
    simp only [partRangesLoop] at hr
    split at hr
    · rename_i hlt
      rcases List.mem_cons.mp hr with h | h
      · subst h
        simp only [NONCE_LENGTH, SEGMENT_SIZE, AUTH_TAG_LENGTH]
        omega
      · have hnext := ih _ _ r h
        simp only [NONCE_LENGTH, SEGMENT_SIZE, AUTH_TAG_LENGTH] at hnext
        omega
    · simp at hr

theorem partRangesLoop_chain (fuel : Nat) :
    ∀ p fs, List.Chain' (fun a b : PartRange => a.stop = b.start)
      (partRangesLoop fuel fs p) := by
  induction fuel with
  | zero =>
    intro p fs
    simp [partRangesLoop]
  | succ n ih =>
    intro p fs
    simp only [partRangesLoop]
    split
    · rename_i hlt
      refine List.chain'_cons'.mpr ⟨?_, ih _ _⟩
      intro b hb
      cases n with
      | zero => simp [partRangesLoop] at hb
      | succ m =>
        simp only [partRangesLoop] at hb
        split at hb
        · rename_i hlt2
          simp only [List.head?_cons, Option.mem_def, Option.some.injEq] at hb
          subst hb
          simp only [NONCE_LENGTH, SEGMENT_SIZE, AUTH_TAG_LENGTH] at hlt2 ⊢
          omega
        · simp at hb
    · simp

theorem partRangesLoop_length (fuel : Nat) :
    ∀ p fs, fs - p ≤ fuel →
      (partRangesLoop fuel fs p).length = (fs - p + 65563) / 65564 := by
  induction fuel with
  | zero =>
    intro p fs h
    simp only [partRangesLoop, List.length_nil]
    omega
  | succ n ih =>
    intro p fs h
    simp only [partRangesLoop]
    split
    · rename_i hlt
      simp only [List.length_cons]
      rw [ih]
      · simp only [NONCE_LENGTH, SEGMENT_SIZE, AUTH_TAG_LENGTH]
        omega
      · simp only [NONCE_LENGTH, SEGMENT_SIZE, AUTH_TAG_LENGTH]
        omega
    · rename_i hge
      simp only [List.length_nil]
      omega

/-- The planner emits the loop applied to `size_sans_envelope`. -/
theorem calc_encrypted_part_ranges_eq (u : FileUpload) :
    u.calc_encrypted_part_ranges =
      partRangesLoop (size_sans_envelope u.decrypted_size)
        (size_sans_envelope u.decrypted_size) 0 := by
  simp only [FileUpload.calc_encrypted_part_ranges, file_size_eq]

/-! ## C1 and C2 -/

/-- C1: the claim asserts that for `encrypted_size = envelope +
ciphertext_size_spec decrypted_size` (the §4.3 formula, which adds the
partial-segment term only when the plaintext remainder is positive),
`FileUpload.offset` recovers the envelope length for every
`decrypted_size ≥ 0`.  This fails on the code: `size_sans_envelope` adds
the `remainder + N + T` term unconditionally, so for the exact-multiple
plaintext size 65536 with a 124-byte envelope the code returns
`offset = 96`, not `124`. -/
theorem c1_offset_code_bug_at_exact_multiple :
    ciphertext_size_spec 65536 = 65564 ∧
    (FileUpload.mk 65536 (124 + ciphertext_size_spec 65536) 16777216).offset = 96 ∧
    (96 : Int) ≠ 124 := by
  decide

/-- C2 counterexample: for the valid upload with `decrypted_size = 65536`
(one full segment, remainder zero) and `encrypted_size = 65688`
(`offset = 96 ≥ 0`, `encrypted_size > offset`), the planner emits two
ranges — the second a spurious 28-byte tail — while the Crypt4GH segment
count of the plaintext is `⌈65536 / 65536⌉ = 1`. -/
theorem c2_part_ranges_counterexample :
    (FileUpload.mk 65536 65688 16777216).calc_encrypted_part_ranges =
      [⟨0, 65564⟩, ⟨65564, 65592⟩] ∧
    (FileUpload.mk 65536 65688 16777216).calc_encrypted_part_ranges.length = 2 ∧
    (65536 + SEGMENT_SIZE - 1) / SEGMENT_SIZE = 1 ∧
    (2 : Nat) ≠ 1 := by
  decide

/-- C2 (amended): for every `FileUpload` the emitted ranges are
contiguous (each stop equals the next start), have positive length
bounded by `encrypted_size - offset`, and their lengths sum to
`encrypted_size - offset`; the count equals the Crypt4GH segment count
`⌈decrypted_size / 65536⌉` whenever `decrypted_size` is not an exact
multiple of the segment size (for exact multiples the code emits one
extra 28-byte range, see the counterexample). -/
theorem c2_part_ranges_amended (u : FileUpload) :
    ((u.calc_encrypted_part_ranges.map (fun r => r.stop - r.start)).sum =
        size_sans_envelope u.decrypted_size ∧
      List.Chain' (fun a b => a.stop = b.start) u.calc_encrypted_part_ranges ∧
      (∀ r ∈ u.calc_encrypted_part_ranges,
        r.start < r.stop ∧ r.stop ≤ size_sans_envelope u.decrypted_size)) ∧
    (u.decrypted_size % SEGMENT_SIZE ≠ 0 →
      u.calc_encrypted_part_ranges.length =
        (u.decrypted_size + SEGMENT_SIZE - 1) / SEGMENT_SIZE) := by
  rw [calc_encrypted_part_ranges_eq]
  refine ⟨⟨?_, partRangesLoop_chain _ _ _, ?_⟩, ?_⟩
  · rw [partRangesLoop_sum _ 0 _ (by omega)]
    omega
  · intro r hr
    have := partRangesLoop_mem _ _ _ r hr
    omega
  · intro hrem
    rw [partRangesLoop_length _ 0 _ (by omega)]
    have heq := size_sans_envelope_eq u.decrypted_size
    have hdm := Nat.div_add_mod u.decrypted_size SEGMENT_SIZE
    have hlt : u.decrypted_size % SEGMENT_SIZE < SEGMENT_SIZE :=
      Nat.mod_lt _ (by decide)
    simp only [NONCE_LENGTH, SEGMENT_SIZE, AUTH_TAG_LENGTH] at heq hdm hlt hrem ⊢
    omega

/-- Witness for `c2_part_ranges_amended` at a concrete upload
(`decrypted_size = 10`, remainder positive). -/
theorem c2_part_ranges_amended_witness :
    (10 : Nat) % SEGMENT_SIZE ≠ 0 ∧
    (FileUpload.mk 10 200 1).calc_encrypted_part_ranges.length =
      (10 + SEGMENT_SIZE - 1) / SEGMENT_SIZE :=
  ⟨by decide, (c2_part_ranges_amended (FileUpload.mk 10 200 1)).2 (by decide)⟩

/-! ## Facts about the interrogation trace semantics -/

/-- A run of the part loop over failure-free parts performs, per part, a
fetch followed by an upload, and raises nothing. -/
theorem processLoop_clean (env : Env) :
    ∀ l : List Nat, ∀ reenc, (∀ n ∈ l, cleanAt env n) →
      processLoop env l reenc =
        (l.flatMap (fun n => [Event.fetchPart n, Event.uploadPart n]), none) := by
  intro l
  induction l with
  | nil =>
    intro reenc _
    simp [processLoop]
  | cons n rest ih =>
    intro reenc h
    obtain ⟨h1, h2, h3, h4⟩ := h n (List.mem_cons_self n rest)
    simp only [processLoop, h1, h2, h3, h4, Bool.false_eq_true, if_false]
    rw [ih (some n) (fun m hm => h m (List.mem_cons_of_mem _ hm))]
    simp

/-- If every part before `n` is failure-free and part `n` fails its
initial decryption, the loop stops at the fetch of part `n` with a
`DecryptionError` — no abort happens inside the loop. -/
theorem processLoop_decrypt_fail (env : Env) :
    ∀ l1 : List Nat, ∀ n l2 reenc, (∀ m ∈ l1, cleanAt env m) →
      env.decryptOldFails n = true →
      processLoop env (l1 ++ n :: l2) reenc =
        (l1.flatMap (fun m => [Event.fetchPart m, Event.uploadPart m]) ++
          [Event.fetchPart n], some .decryptionError) := by
  intro l1
  induction l1 with
  | nil =>
    intro n l2 reenc _ hf
    simp [processLoop, hf]
  | cons m rest ih =>
    intro n l2 reenc h hf
    obtain ⟨h1, h2, h3, h4⟩ := h m (List.mem_cons_self m rest)
    simp only [List.cons_append, processLoop, h1, h2, h3, h4, Bool.false_eq_true,
      if_false, List.append_eq]
    rw [ih n l2 (some m) (fun x hx => h x (List.mem_cons_of_mem _ hx)) hf]
    simp

/-- Splitting `List.range` around an interior index. -/
theorem range_split (numParts n : Nat) (h : n < numParts) :
    List.range numParts =
      List.range n ++ n ::
        ((List.range (numParts - n - 1)).map (fun i => n + (i + 1))) := by
  have h1 : numParts = n + (numParts - n - 1 + 1) := by omega
  rw [h1, List.range_add, List.range_succ_eq_map]
  simp [List.map_map, Function.comp_def, Nat.succ_eq_add_one]

/-- Every event emitted by the part loop machinery is a fetch or an
upload of some part. -/
theorem mem_flatMap_parts (l : List Nat) (e : Event)
    (he : e ∈ l.flatMap (fun n => [Event.fetchPart n, Event.uploadPart n])) :
    ∃ n, e = Event.fetchPart n ∨ e = Event.uploadPart n := by
  rcases List.mem_flatMap.mp he with ⟨n, _, hn⟩
  simp only [List.mem_cons, List.not_mem_nil, or_false] at hn
  exact ⟨n, hn⟩

/-- The part loop never raises the dedicated envelope error. -/
theorem processLoop_never_envelope_err (env : Env) :
    ∀ l : List Nat, ∀ reenc,
      (processLoop env l reenc).2 ≠ some Err.envelopeDecryptionError := by
  intro l
  induction l with
  | nil =>
    intro reenc
    simp [processLoop]
  | cons n rest ih =>
    intro reenc
    simp only [processLoop]
    split
    · simp
    · cases hre : (if env.reencryptFails n then reenc else some n) with
      | none => simp
      | some j =>
        simp only
        split
        · simp
        · split
          · simp
          · simpa using ih (some j)

/-! ## C3 — ReencryptionError handling -/

/-- C3: the claim (spec: `ReencryptionError → ABORT_MPU → FATAL`) fails
on the code.  With re-encryption failing on part 0, the
`except self.ReencryptionError` block of `_process_file_parts` only logs
— there is no `raise` — so execution falls through to the confirmatory
decrypt, whose `reencrypted_part` local was never assigned: the run dies
with an `UnboundLocalError`, never calls `abort_upload`, never
re-raises `ReencryptionError`, and submits no report (the escaping error
is not an `InterrogationError`). -/
theorem c3_reencrypt_error_swallowed :
    runBatch [⟨5, true,
      { envelopeParses := true, initUploadFails := false, numParts := 1,
        decryptOldFails := fun _ => false, reencryptFails := fun _ => true,
        confirmFails := fun _ => false, uploadPartFails := fun _ => false,
        shaMatches := true, completeFails := false, etagMatches := true }⟩] =
      ([Event.fetchEnvelope, Event.initUpload, Event.fetchPart 0],
        some Err.unboundLocal) ∧
    Err.unboundLocal ≠ Err.reencryptionError ∧
    Event.abortUpload ∉
      [Event.fetchEnvelope, Event.initUpload, Event.fetchPart 0] ∧
    ([Event.fetchEnvelope, Event.initUpload,
      Event.fetchPart 0].filter Event.isFailureReport) = [] := by
  decide

/-! ## C4 — ETag mismatch after completion -/

/-- C4 counterexample: with the ETag comparison failing and everything
else succeeding, the batch run finishes normally (`none`): the
`ChecksumMismatchError` raised for the ETag mismatch is an
`InterrogationError`, so `interrogate_new_files` catches it, submits a
failure report for file 7, and continues with file 8 — contradicting the
claim that the error propagates and no report is submitted. -/
theorem c4_etag_mismatch_counterexample :
    runBatch
      [⟨7, true,
        { envelopeParses := true, initUploadFails := false, numParts := 1,
          decryptOldFails := fun _ => false, reencryptFails := fun _ => false,
          confirmFails := fun _ => false, uploadPartFails := fun _ => false,
          shaMatches := true, completeFails := false, etagMatches := false }⟩,
       ⟨8, true,
        { envelopeParses := true, initUploadFails := false, numParts := 1,
          decryptOldFails := fun _ => false, reencryptFails := fun _ => false,
          confirmFails := fun _ => false, uploadPartFails := fun _ => false,
          shaMatches := true, completeFails := false, etagMatches := true }⟩] =
      ([Event.fetchEnvelope, Event.initUpload, Event.fetchPart 0,
        Event.uploadPart 0, Event.completeUpload,
        Event.reportFailure 7 etagMismatchMsg,
        Event.fetchEnvelope, Event.initUpload, Event.fetchPart 0,
        Event.uploadPart 0, Event.completeUpload, Event.reportSuccess 8],
       none) ∧
    Err.isInterrogationError (Err.checksumMismatch etagMismatchMsg) = true := by
  decide

/-- C4 (amended): an ETag mismatch after `complete_upload` raises
`ChecksumMismatchError`, which — being an `InterrogationError` — does not
propagate out of `interrogate_new_files`: exactly one failure report
(`passed=false`, the ETag reason) is submitted for the file, and the
batch continues with the remaining files. -/
theorem c4_etag_mismatch_amended (env : Env) (fid : Nat)
    (he : env.envelopeParses = true) (hi : env.initUploadFails = false)
    (hc : ∀ m < env.numParts, cleanAt env m)
    (hs : env.shaMatches = true) (hcf : env.completeFails = false)
    (het : env.etagMatches = false) :
    interrogateFile env fid =
      (Event.fetchEnvelope :: Event.initUpload ::
        ((List.range env.numParts).flatMap
          (fun n => [Event.fetchPart n, Event.uploadPart n]) ++
          [Event.completeUpload]),
       some (Err.checksumMismatch etagMismatchMsg)) ∧
    Err.isInterrogationError (Err.checksumMismatch etagMismatchMsg) = true ∧
    (∀ rest, runBatch (⟨fid, true, env⟩ :: rest) =
      ((interrogateFile env fid).1 ++
        Event.reportFailure fid etagMismatchMsg :: (runBatch rest).1,
       (runBatch rest).2)) ∧
    ((runBatch [⟨fid, true, env⟩]).1.filter Event.isFailureReport) =
      [Event.reportFailure fid etagMismatchMsg] := by
  have hloop := processLoop_clean env (List.range env.numParts) none
    (fun n hn => hc n (List.mem_range.mp hn))
  have hfile : interrogateFile env fid =
      (Event.fetchEnvelope :: Event.initUpload ::
        ((List.range env.numParts).flatMap
          (fun n => [Event.fetchPart n, Event.uploadPart n]) ++
          [Event.completeUpload]),
       some (Err.checksumMismatch etagMismatchMsg)) := by
    simp only [interrogateFile, he, hi, hloop, hs, hcf, het]
    simp
  have hbatch : ∀ rest, runBatch (⟨fid, true, env⟩ :: rest) =
      ((interrogateFile env fid).1 ++
        Event.reportFailure fid etagMismatchMsg :: (runBatch rest).1,
       (runBatch rest).2) := by
    intro rest
    simp only [runBatch, hfile]
    simp [Err.isInterrogationError, Err.message]
  refine ⟨hfile, rfl, hbatch, ?_⟩
  rw [hbatch []]
  simp only [runBatch, List.append_nil, hfile]
  rw [List.filter_append]
  rw [List.filter_eq_nil_iff.mpr]
  · simp [Event.isFailureReport]
  · intro e he'
    simp only [List.mem_cons, List.mem_append, List.mem_singleton,
      List.not_mem_nil, or_false] at he'
    rcases he' with h | h | h | h
    · subst h; simp [Event.isFailureReport]
    · subst h; simp [Event.isFailureReport]
    · rcases mem_flatMap_parts _ _ h with ⟨n, hn | hn⟩ <;>
        (subst hn; simp [Event.isFailureReport])
    · subst h; simp [Event.isFailureReport]

/-- Witness for `c4_etag_mismatch_amended` at a concrete environment. -/
theorem c4_etag_mismatch_amended_witness :
    ((runBatch [⟨7, true,
      { envelopeParses := true, initUploadFails := false, numParts := 1,
        decryptOldFails := fun _ => false, reencryptFails := fun _ => false,
        confirmFails := fun _ => false, uploadPartFails := fun _ => false,
        shaMatches := true, completeFails := false,
        etagMatches := false }⟩]).1.filter Event.isFailureReport) =
      [Event.reportFailure 7 etagMismatchMsg] :=
  (c4_etag_mismatch_amended
    { envelopeParses := true, initUploadFails := false, numParts := 1,
      decryptOldFails := fun _ => false, reencryptFails := fun _ => false,
      confirmFails := fun _ => false, uploadPartFails := fun _ => false,
      shaMatches := true, completeFails := false, etagMatches := false } 7
    rfl rfl
    (fun m hm => by
      have hm1 : m < 1 := hm
      have : m = 0 := by omega
      subst this
      exact ⟨rfl, rfl, rfl, rfl⟩)
    rfl rfl rfl).2.2.2

/-! ## C5 — envelope decoding failures -/

/-- C5: the claim (envelope parse failures raise the dedicated
`FileEnvelopeDecryptionError`, are caught, and yield one failure report)
fails on the code: `_extract_secret` calls `crypt4gh.header.deconstruct`
with no `try/except`, so no execution of `interrogate_file` ever raises
`FileEnvelopeDecryptionError` (first conjunct), and on a file whose
envelope cannot be parsed the raw library error escapes
`interrogate_new_files` — it is not an `InterrogationError` — with no
failure report submitted (second and third conjuncts). -/
theorem c5_envelope_error_code_bug :
    (∀ env fid, (interrogateFile env fid).2 ≠ some Err.envelopeDecryptionError) ∧
    runBatch [⟨1, true,
      { envelopeParses := false, initUploadFails := false, numParts := 0,
        decryptOldFails := fun _ => false, reencryptFails := fun _ => false,
        confirmFails := fun _ => false, uploadPartFails := fun _ => false,
        shaMatches := true, completeFails := false, etagMatches := true }⟩] =
      ([Event.fetchEnvelope], some Err.rawHeaderError) ∧
    Err.isInterrogationError Err.rawHeaderError = false := by
  refine ⟨?_, by decide, rfl⟩
  intro env fid
  simp only [interrogateFile]
  split
  · simp
  · split
    · simp
    · split
      · rename_i e heq
        have hne := processLoop_never_envelope_err env (List.range env.numParts) none
        rw [heq] at hne
        simpa using hne
      · split
        · simp
        · split
          · simp
          · split
            · simp
            · simp

/-! ## C6 — per-part decryption failure under the old key -/

/-- C6 counterexample: with part 0 failing its initial decryption, the
whole run performs `[fetchEnvelope, initUpload, fetchPart 0,
reportFailure]` — `abort_upload` is never called, contradicting the
claim that the multipart upload is aborted before the failure is
reported (the failure report itself, and the batch continuing, do
hold). -/
theorem c6_no_abort_counterexample :
    runBatch [⟨3, true,
      { envelopeParses := true, initUploadFails := false, numParts := 1,
        decryptOldFails := fun _ => true, reencryptFails := fun _ => false,
        confirmFails := fun _ => false, uploadPartFails := fun _ => false,
        shaMatches := true, completeFails := false, etagMatches := true }⟩] =
      ([Event.fetchEnvelope, Event.initUpload, Event.fetchPart 0,
        Event.reportFailure 3 ""], none) ∧
    Event.abortUpload ∉
      [Event.fetchEnvelope, Event.initUpload, Event.fetchPart 0,
        Event.reportFailure 3 ""] := by
  decide

/-- C6 (amended): when part `n` fails its initial decryption under the
old key (all earlier parts clean), `interrogate_file` raises
`DecryptionError` without calling `abort_upload`; `interrogate_new_files`
catches it and submits exactly one failure report (`passed=false`,
`reason = str(DecryptionError()) = ""`), then continues with the rest of
the batch. -/
theorem c6_decrypt_failure_amended (env : Env) (fid n : Nat)
    (he : env.envelopeParses = true) (hi : env.initUploadFails = false)
    (hn : n < env.numParts) (hc : ∀ m < n, cleanAt env m)
    (hf : env.decryptOldFails n = true) :
    interrogateFile env fid =
      (Event.fetchEnvelope :: Event.initUpload ::
        ((List.range n).flatMap (fun m => [Event.fetchPart m, Event.uploadPart m]) ++
          [Event.fetchPart n]),
       some Err.decryptionError) ∧
    Event.abortUpload ∉ (interrogateFile env fid).1 ∧
    (∀ rest, runBatch (⟨fid, true, env⟩ :: rest) =
      ((interrogateFile env fid).1 ++
        Event.reportFailure fid "" :: (runBatch rest).1, (runBatch rest).2)) ∧
    ((runBatch [⟨fid, true, env⟩]).1.filter Event.isFailureReport) =
      [Event.reportFailure fid ""] := by
  have hloop := processLoop_decrypt_fail env (List.range n) n
    ((List.range (env.numParts - n - 1)).map (fun i => n + (i + 1))) none
    (fun m hm => hc m (List.mem_range.mp hm)) hf
  have hfile : interrogateFile env fid =
      (Event.fetchEnvelope :: Event.initUpload ::
        ((List.range n).flatMap (fun m => [Event.fetchPart m, Event.uploadPart m]) ++
          [Event.fetchPart n]),
       some Err.decryptionError) := by
    simp only [interrogateFile, he, hi]
    rw [range_split env.numParts n hn, hloop]
    simp
  have habort : Event.abortUpload ∉ (interrogateFile env fid).1 := by
    intro hmem
    rw [hfile] at hmem
    simp only [List.mem_cons, List.mem_append, List.mem_singleton,
      List.not_mem_nil, or_false] at hmem
    rcases hmem with h | h | h | h
    · simp at h
    · simp at h
    · rcases mem_flatMap_parts _ _ h with ⟨m, hm | hm⟩ <;> simp at hm
    · simp at h
  have hbatch : ∀ rest, runBatch (⟨fid, true, env⟩ :: rest) =
      ((interrogateFile env fid).1 ++
        Event.reportFailure fid "" :: (runBatch rest).1, (runBatch rest).2) := by
    intro rest
    simp only [runBatch, hfile]
    simp [Err.isInterrogationError, Err.message]
  refine ⟨hfile, habort, hbatch, ?_⟩
  rw [hbatch []]
  simp only [runBatch, List.append_nil, hfile]
  rw [List.filter_append]
  rw [List.filter_eq_nil_iff.mpr]
  · simp [Event.isFailureReport]
  · intro e he'
    simp only [List.mem_cons, List.mem_append, List.mem_singleton,
      List.not_mem_nil, or_false] at he'
    rcases he' with h | h | h | h
    · subst h; simp [Event.isFailureReport]
    · subst h; simp [Event.isFailureReport]
    · rcases mem_flatMap_parts _ _ h with ⟨m, hm | hm⟩ <;>
        (subst hm; simp [Event.isFailureReport])
    · subst h; simp [Event.isFailureReport]

/-- Witness for `c6_decrypt_failure_amended` at a concrete environment. -/
theorem c6_decrypt_failure_amended_witness :
    ((runBatch [⟨3, true,
      { envelopeParses := true, initUploadFails := false, numParts := 1,
        decryptOldFails := fun _ => true, reencryptFails := fun _ => false,
        confirmFails := fun _ => false, uploadPartFails := fun _ => false,
        shaMatches := true, completeFails := false,
        etagMatches := true }⟩]).1.filter Event.isFailureReport) =
      [Event.reportFailure 3 ""] :=
  (c6_decrypt_failure_amended
    { envelopeParses := true, initUploadFails := false, numParts := 1,
      decryptOldFails := fun _ => true, reencryptFails := fun _ => false,
      confirmFails := fun _ => false, uploadPartFails := fun _ => false,
      shaMatches := true, completeFails := false, etagMatches := true } 3 0
    rfl rfl (by decide)
    (fun m hm => absurd hm (Nat.not_lt_zero m))
    rfl).2.2.2

/-! ## C7 — plaintext SHA-256 mismatch -/

/-- C7 (confirmed): when every part processes cleanly but the rolling
plaintext SHA-256 differs from the submitted `decrypted_sha256`,
`interrogate_file` aborts the multipart upload and raises
`ChecksumMismatchError`; the completion call is never issued and no
success report is submitted; `interrogate_new_files` catches the error
and submits exactly one failure report (`passed=false`) whose reason
contains "SHA-256", and the batch continues. -/
theorem c7_sha_mismatch_aborts_and_reports (env : Env) (fid : Nat)
    (he : env.envelopeParses = true) (hi : env.initUploadFails = false)
    (hc : ∀ m < env.numParts, cleanAt env m)
    (hs : env.shaMatches = false) :
    interrogateFile env fid =
      (Event.fetchEnvelope :: Event.initUpload ::
        ((List.range env.numParts).flatMap
          (fun n => [Event.fetchPart n, Event.uploadPart n]) ++
          [Event.abortUpload]),
       some (Err.checksumMismatch shaMismatchMsg)) ∧
    Event.completeUpload ∉ (interrogateFile env fid).1 ∧
    (∀ i, Event.reportSuccess i ∉ (interrogateFile env fid).1) ∧
    (∀ rest, runBatch (⟨fid, true, env⟩ :: rest) =
      ((interrogateFile env fid).1 ++
        Event.reportFailure fid shaMismatchMsg :: (runBatch rest).1,
       (runBatch rest).2)) ∧
    ((runBatch [⟨fid, true, env⟩]).1.filter Event.isFailureReport) =
      [Event.reportFailure fid shaMismatchMsg] ∧
    (∃ s, shaMismatchMsg = "SHA-256" ++ s) := by
  have hloop := processLoop_clean env (List.range env.numParts) none
    (fun n hn => hc n (List.mem_range.mp hn))
  have hfile : interrogateFile env fid =
      (Event.fetchEnvelope :: Event.initUpload ::
        ((List.range env.numParts).flatMap
          (fun n => [Event.fetchPart n, Event.uploadPart n]) ++
          [Event.abortUpload]),
       some (Err.checksumMismatch shaMismatchMsg)) := by
    simp only [interrogateFile, he, hi, hloop, hs]
    simp
  have hcomplete : Event.completeUpload ∉ (interrogateFile env fid).1 := by
    intro hmem
    rw [hfile] at hmem
    simp only [List.mem_cons, List.mem_append, List.mem_singleton,
      List.not_mem_nil, or_false] at hmem
    rcases hmem with h | h | h | h
    · simp at h
    · simp at h
    · rcases mem_flatMap_parts _ _ h with ⟨m, hm | hm⟩ <;> simp at hm
    · simp at h
  have hsuccess : ∀ i, Event.reportSuccess i ∉ (interrogateFile env fid).1 := by
    intro i hmem
    rw [hfile] at hmem
    simp only [List.mem_cons, List.mem_append, List.mem_singleton,
      List.not_mem_nil, or_false] at hmem
    rcases hmem with h | h | h | h
    · simp at h
    · simp at h
    · rcases mem_flatMap_parts _ _ h with ⟨m, hm | hm⟩ <;> simp at hm
    · simp at h
  have hbatch : ∀ rest, runBatch (⟨fid, true, env⟩ :: rest) =
      ((interrogateFile env fid).1 ++
        Event.reportFailure fid shaMismatchMsg :: (runBatch rest).1,
       (runBatch rest).2) := by
    intro rest
    simp only [runBatch, hfile]
    simp [Err.isInterrogationError, Err.message]
  refine ⟨hfile, hcomplete, hsuccess, hbatch, ?_, ?_⟩
  · rw [hbatch []]
    simp only [runBatch, List.append_nil, hfile]
    rw [List.filter_append]
    rw [List.filter_eq_nil_iff.mpr]
    · simp [Event.isFailureReport]
    · intro e he'
      simp only [List.mem_cons, List.mem_append, List.mem_singleton,
        List.not_mem_nil, or_false] at he'
      rcases he' with h | h | h | h
      · subst h; simp [Event.isFailureReport]
      · subst h; simp [Event.isFailureReport]
      · rcases mem_flatMap_parts _ _ h with ⟨m, hm | hm⟩ <;>
          (subst hm; simp [Event.isFailureReport])
      · subst h; simp [Event.isFailureReport]
  · exact ⟨" checksum over unencrypted content does not match the" ++
      " value submitted with the file", by decide⟩

/-- Witness for `c7_sha_mismatch_aborts_and_reports` at a concrete
environment. -/
theorem c7_sha_mismatch_witness :
    ((runBatch [⟨4, true,
      { envelopeParses := true, initUploadFails := false, numParts := 1,
        decryptOldFails := fun _ => false, reencryptFails := fun _ => false,
        confirmFails := fun _ => false, uploadPartFails := fun _ => false,
        shaMatches := false, completeFails := false,
        etagMatches := true }⟩]).1.filter Event.isFailureReport) =
      [Event.reportFailure 4 shaMismatchMsg] :=
  (c7_sha_mismatch_aborts_and_reports
    { envelopeParses := true, initUploadFails := false, numParts := 1,
      decryptOldFails := fun _ => false, reencryptFails := fun _ => false,
      confirmFails := fun _ => false, uploadPartFails := fun _ => false,
      shaMatches := false, completeFails := false, etagMatches := true } 4
    rfl rfl
    (fun m hm => by
      have hm1 : m < 1 := hm
      have : m = 0 := by omega
      subst this
      exact ⟨rfl, rfl, rfl, rfl⟩)
    rfl).2.2.2.2.1

/-! ## C8 — Range-header translation -/

/-- C8 counterexample: the claim says the adapter translates a half-open
planner range `[start, stop)` to the inclusive wire header
`bytes=start-(stop-1)`, requesting `stop - start` bytes.  The code
(`f"bytes={start}-{stop}"`, matching its docstring and
`test_fetch_file_content_range`, which expects 116 bytes for
`start=0, stop=115`) performs no translation: the header is
`bytes=0-115` (not `bytes=0-114`) and denotes 116 bytes, not 115. -/
theorem c8_range_header_counterexample :
    rangeHeaderValue 0 115 = "bytes=0-115" ∧
    rangeHeaderValue 0 115 ≠ "bytes=0-114" ∧
    (wireBytesRequested 0 115).length = 116 ∧
    (116 : Nat) ≠ 115 - 0 := by
  decide

/-- C8 (amended): `fetch_file_content_range` forwards `start` and `stop`
unchanged into an inclusive-inclusive `Range` header, so for every range
the planner emits, the bytes requested on the wire are exactly the
planner's half-open `[start, stop)` plus one extra byte at offset
`stop`: `stop - start + 1` bytes in total. -/
theorem c8_range_no_translation_amended (u : FileUpload) (r : PartRange)
    (hr : r ∈ u.calc_encrypted_part_ranges) :
    wireBytesRequested r.start r.stop = plannerBytes r ++ [r.stop] ∧
    (wireBytesRequested r.start r.stop).length = (r.stop - r.start) + 1 := by
  rw [calc_encrypted_part_ranges_eq] at hr
  have hmem := partRangesLoop_mem _ _ _ r hr
  have hlt : r.start < r.stop := hmem.2.1
  constructor
  · simp only [wireBytesRequested, plannerBytes]
    rw [List.range'_concat]
    have : r.start + 1 * (r.stop - r.start) = r.stop := by omega
    rw [this]
  · simp [wireBytesRequested]

/-- Witness for `c8_range_no_translation_amended` at the single range of
a 10-byte upload. -/
theorem c8_range_no_translation_witness :
    (PartRange.mk 0 38) ∈ (FileUpload.mk 10 200 1).calc_encrypted_part_ranges ∧
    wireBytesRequested 0 38 = plannerBytes ⟨0, 38⟩ ++ [38] :=
  ⟨by decide,
    (c8_range_no_translation_amended (FileUpload.mk 10 200 1) ⟨0, 38⟩ (by decide)).1⟩

/-! ## C9 — deletion idempotence -/

/-- C9 counterexample: inside `S3Cleaner.scan_and_clean` a delete of an
absent object does not warn-and-continue; the `except Exception` wrapper
turns the `ObjectNotFoundError` into a raised `S3CleanupError` that stops
the run (here: bucket holds only "a", the central API approves removal of
"b"). -/
theorem c9_cleaner_counterexample :
    scan_and_clean ["a"] ["b"] = (["a"], CleanOutcome.raisedCleanupError "b") ∧
    CleanOutcome.raisedCleanupError "b" ≠ CleanOutcome.completed := by
  decide

/-- C9 (amended): `S3Client.remove_file` is idempotent — deleting an
absent object logs a warning and returns normally, so a repeated
`remove_file` on the same id does not raise — but the per-object delete
inside `S3Cleaner.scan_and_clean` is not: an absent object there raises
`S3CleanupError`. -/
theorem c9_deletion_amended (store : List String) (object_id : String)
    (h : object_id ∉ store) :
    remove_file store object_id = (S3CallResult.ok true, store) ∧
    (remove_file ((remove_file (object_id :: store) object_id).2) object_id).1 =
      S3CallResult.ok true ∧
    (∀ rest, scan_and_clean store (object_id :: rest) =
      (store, CleanOutcome.raisedCleanupError object_id)) := by
  have h1 : remove_file store object_id = (S3CallResult.ok true, store) := by
    simp [remove_file, storeDelete, h, removeFileHandler]
  refine ⟨h1, ?_, ?_⟩
  · have h2 : (remove_file (object_id :: store) object_id).2 = store := by
      simp [remove_file, storeDelete, List.erase_cons_head]
    rw [h2, h1]
  · intro rest
    simp [scan_and_clean, scanAndCleanLoop, storeDelete, h]

/-- Witness for `c9_deletion_amended` with bucket `["a"]` and approved
id `"b"`. -/
theorem c9_deletion_amended_witness :
    ("b" ∉ (["a"] : List String)) ∧
    remove_file ["a"] "b" = (S3CallResult.ok true, ["a"]) ∧
    scan_and_clean ["a"] ["b"] = (["a"], CleanOutcome.raisedCleanupError "b") :=
  ⟨by decide, (c9_deletion_amended ["a"] "b" (by decide)).1,
    (c9_deletion_amended ["a"] "b" (by decide)).2.2 []⟩

/-! ## C10 — the core's S3 invocations vs the port contract -/

/-- C10 (confirmed): against any client implementing exactly the
`S3ClientPort` contract, the very first S3 invocation of
`interrogate_file` — the envelope fetch via `fetch_file_part`, a method
the port does not define — fails to resolve (index 0 of the call
sequence, before any file part is fetched or uploaded), for every
possible part count; moreover the port resolves `fetch_file_part` to a
missing attribute, and the core's `complete_upload` call omits the
`part_count` keyword the port requires. -/
theorem c10_interrogate_file_breaks_port_contract :
    (∀ numParts, firstFaultIdx (interrogateFileS3Calls numParts) = some 0) ∧
    (∀ numParts, (interrogateFileS3Calls numParts).head? =
      some ⟨"fetch_file_part", ["object_id", "start", "stop"]⟩) ∧
    resolveCall ⟨"fetch_file_part", ["object_id", "start", "stop"]⟩ =
      some CallFault.missingMethod ∧
    resolveCall ⟨"complete_upload", ["upload_id", "object_id"]⟩ =
      some CallFault.badArguments ∧
    (s3PortMethodKwargs.find? (fun p => p.1 == "complete_upload")).map Prod.snd =
      some ["upload_id", "object_id", "part_count"] := by
  refine ⟨?_, fun numParts => rfl, by decide, by decide, by decide⟩
  intro numParts
  have hhead : ((fun c => (resolveCall c).isSome)
      (⟨"fetch_file_part", ["object_id", "start", "stop"]⟩ : S3Call)) = true := by
    decide
  rw [show interrogateFileS3Calls numParts =
    ⟨"fetch_file_part", ["object_id", "start", "stop"]⟩ ::
      (⟨"init_interrogation_bucket_upload", ["object_id"]⟩ ::
        ((List.range numParts).flatMap (fun _ =>
          [⟨"fetch_file_part", ["object_id", "start", "stop"]⟩,
           ⟨"upload_file_part",
             ["upload_id", "object_id", "part_no", "part_md5", "part"]⟩]) ++
         [⟨"complete_upload", ["upload_id", "object_id"]⟩])) from rfl]
  simp only [firstFaultIdx, List.findIdx?_cons]
  simp [hhead]
